import Mathlib

set_option maxRecDepth 8000

/-
Verification of the scaffoldfitter core against its specification.
Shallow embedding of src/scaffoldfitter/fitter.py and
src/scaffoldfitter/fitterstepalign.py: the step pipeline with its
reload/replay discipline, the data-proportion subsampling accumulator,
the alignment solver's discrete rotation grid search, per-element
deformation-penalty assignment, settings JSON round-tripping, and the
model-export field renaming.  Real (zinc double) arithmetic is modelled
exactly over the rationals; external zinc capabilities (field evaluation,
nearest-point search, the least-squares optimiser, region I/O) are
abstracted as function parameters.
-/

/-- 3-component coordinate vector, modelled over the rationals. -/
def V3 : Type := ℚ × ℚ × ℚ

instance : DecidableEq V3 := by
  unfold V3
  infer_instance

/-- Componentwise vector subtraction (opencmiss.maths.vectorops.sub). -/
def vsub (u v : V3) : V3 := (u.1 - v.1, u.2.1 - v.2.1, u.2.2 - v.2.2)

/-- Scalar multiple of a vector (opencmiss.maths.vectorops.mult). -/
def vsmul (s : ℚ) (v : V3) : V3 := (s * v.1, s * v.2.1, s * v.2.2)

/- ----------------------------------------------------------------------
Step pipeline (Fitter.run / Fitter.load, fitter.py lines 212-234, 421-445).
A step is its geometric action on the shared model state together with its
hasRun flag; the fitter holds the ordered step list, the current model
state, and the state a load rebuilds from source.
---------------------------------------------------------------------- -/

/-- A pipeline entry (FitterStep): its action on the model state and its
hasRun flag. -/
structure PipelineStep (σ : Type) where
  action : σ → σ
  hasRun : Bool

/-- Pipeline state of a Fitter: the model state a load rebuilds from the
source files, the ordered step list, and the current model state. -/
structure FitterState (σ : Type) where
  freshState : σ
  steps : List (PipelineStep σ)
  state : σ

/-- hasRun flag of the step at index i (false out of range). -/
def hasRunAt {σ : Type} (m : FitterState σ) (i : ℕ) : Bool :=
  match m.steps[i]? with
  | some s => s.hasRun
  | none => false

/-- Execute the step at index i: apply its action to the current model
state and set its hasRun flag (FitterStep.run). -/
def runStepAt {σ : Type} (m : FitterState σ) (i : ℕ) : FitterState σ :=
  match m.steps[i]? with
  | some s =>
      { m with
        state := s.action m.state,
        steps := m.steps.set i { s with hasRun := true } }
  | none => m

/-- Fitter.load (fitter.py lines 212-234): rebuild the model and all
derived fields from source, clear every step's hasRun flag, then run the
initial config step. -/
def Fitter.load {σ : Type} (m : FitterState σ) : FitterState σ :=
  let cleared := m.steps.map fun s => { s with hasRun := false }
  match cleared with
  | [] => { m with steps := [], state := m.freshState }
  | s :: rest =>
      { m with
        steps := { s with hasRun := true } :: rest,
        state := s.action m.freshState }

/-- The reload path of Fitter.run: load, then replay steps 1..endIndex in
order (fitter.py lines 433-437). -/
def Fitter.reloadReplay {σ : Type} (m : FitterState σ) (endIndex : ℕ) : FitterState σ :=
  (List.range' 1 endIndex).foldl runStepAt (Fitter.load m)

/-- The incremental path of Fitter.run: run each not-yet-run step from the
second through endIndex (fitter.py lines 441-444). -/
def Fitter.runIncremental {σ : Type} (m : FitterState σ) (endIndex : ℕ) : FitterState σ :=
  (List.range' 1 endIndex).foldl
    (fun acc i => if hasRunAt acc i then acc else runStepAt acc i) m

/-- Fitter.run (fitter.py lines 421-445) with target step index endIndex.
Returns the new pipeline state and the returned boolean (True if the model
was reloaded). -/
def Fitter.run {σ : Type} (m : FitterState σ) (endIndex : ℕ) : FitterState σ × Bool :=
  if hasRunAt m endIndex && decide (endIndex < m.steps.length - 1)
      && hasRunAt m (endIndex + 1) then
    (Fitter.reloadReplay m endIndex, true)
  else if endIndex = 0 then
    (runStepAt m 0, false)
  else
    (Fitter.runIncremental m endIndex, false)

/- ----------------------------------------------------------------------
Data-proportion subsampling accumulator
(Fitter.calculateGroupDataProjections, fitter.py lines 949-963):
dataProportionCounter starts at 0.5, dataProportion is added per point, a
point is accepted iff the counter reaches 1.0, after which 1.0 is
subtracted.
---------------------------------------------------------------------- -/

/-- Run the accumulator over n points starting from counter c: returns the
final counter and the number of accepted points. -/
def runAccum (p : ℚ) (c : ℚ) : ℕ → ℚ × ℕ
  | 0 => (c, 0)
  | n + 1 =>
    let c' := c + p
    if 1 ≤ c' then
      let r := runAccum p (c' - 1) n
      (r.1, r.2 + 1)
    else
      runAccum p c' n

/-- The sublist of points accepted by the accumulator scheme, starting
from counter c (the code's dataProportionCounter loop over the group's
node iterator). -/
def acceptedList {α : Type} (p : ℚ) (c : ℚ) : List α → List α
  | [] => []
  | x :: xs =>
    let c' := c + p
    if 1 ≤ c' then x :: acceptedList p (c' - 1) xs
    else acceptedList p c' xs

/-- The acceptance pattern of the accumulator scheme: which of the next n
positions are accepted, starting from counter c.  Depends only on p, c and
n, never on the point values. -/
def acceptMask (p : ℚ) (c : ℚ) : ℕ → List Bool
  | 0 => []
  | n + 1 =>
    let c' := c + p
    if 1 ≤ c' then true :: acceptMask p (c' - 1) n
    else false :: acceptMask p c' n

/-- Select the elements of a list at the true positions of a mask. -/
def applyMask {α : Type} : List Bool → List α → List α
  | true :: ms, x :: xs => x :: applyMask ms xs
  | false :: ms, _ :: xs => applyMask ms xs
  | _, _ => []

/- ----------------------------------------------------------------------
Alignment solver: discrete rotation grid search
(FitterStepAlign._optimiseAlignment, fitterstepalign.py lines 317-353).
The loop indices are x (roll quarter-turns, range(2)), y (elevation
quarter-turns, range(4) when x == 0 else (0, 2)) and z (azimuth
quarter-turns, range(4)); the angles are 0.5*pi times the index.  Angles
are represented here in degrees (index * 90).  The rotation matrix
construction (euler_to_rotation_matrix) and the sum-of-squares objective
field are external zinc capabilities, abstracted as parameters R and obj.
---------------------------------------------------------------------- -/

/-- The (x, y, z) loop index triples of the grid search, in loop order. -/
def gridTriples : List (ℕ × ℕ × ℕ) :=
  (List.range 2).flatMap fun x =>
    (if x = 0 then List.range 4 else [0, 2]).flatMap fun y =>
      (List.range 4).map fun z => (x, y, z)

/-- The candidate Euler-angle triples (azimuth, elevation, roll), in whole
degrees (the code's 0.5 * pi * index in radians equals index * 90
degrees), in the order the code evaluates them. -/
def gridAngles : List (ℕ × ℕ × ℕ) :=
  gridTriples.map fun t => (90 * t.2.2, 90 * t.2.1, 90 * t.1)

/-- The grid exactly as the specification words it: roll in {0, 90};
elevation restricted to {0, 180} when roll is nonzero, else
{0, 90, 180, 270}; azimuth in {0, 90, 180, 270}.  Stated from the spec for
comparison with gridAngles, which is read off the code's loops. -/
def claimGridAngles : List (ℕ × ℕ × ℕ) :=
  ([0, 90] : List ℕ).flatMap fun roll =>
    (if roll ≠ 0 then ([0, 180] : List ℕ) else [0, 90, 180, 270]).flatMap fun elevation =>
      ([0, 90, 180, 270] : List ℕ).map fun azimuth => (azimuth, elevation, roll)

/-- Candidate translation for a rotation candidate:
translationFix = mult(sub(R . modelCM, modelCM), scaleFactor) and the
candidate is sub(translationOffset, translationFix)
(fitterstepalign.py lines 338-339). -/
def candidateTranslation (R : ℕ × ℕ × ℕ → V3 → V3) (scaleFactor : ℚ)
    (modelCM translationOffset : V3) (angles : ℕ × ℕ × ℕ) : V3 :=
  vsub translationOffset (vsmul scaleFactor (vsub (R angles modelCM) modelCM))

/-- One iteration of the grid-search minimum tracking: the running best is
(rotationAngles, translation, objectiveValue), None before the first
candidate ("first" in the code); a strictly smaller objective value
replaces the best (fitterstepalign.py lines 343-347). -/
def gridSearchStep (obj : ℕ × ℕ × ℕ → V3 → ℚ) (candTrans : ℕ × ℕ × ℕ → V3)
    (best : Option ((ℕ × ℕ × ℕ) × V3 × ℚ)) (angles : ℕ × ℕ × ℕ) :
    Option ((ℕ × ℕ × ℕ) × V3 × ℚ) :=
  let t := candTrans angles
  let v := obj angles t
  match best with
  | none => some (angles, t, v)
  | some b => if v < b.2.2 then some (angles, t, v) else some b

/-- The full discrete rotation search: fold the minimum tracking over the
candidate grid (fitterstepalign.py lines 329-347). -/
def gridSearch (obj : ℕ × ℕ × ℕ → V3 → ℚ) (candTrans : ℕ × ℕ × ℕ → V3) :
    Option ((ℕ × ℕ × ℕ) × V3 × ℚ) :=
  gridAngles.foldl (gridSearchStep obj candTrans) none

/-- Invariant of the grid-search fold: the accumulator is None exactly
while no candidate has been seen, and otherwise records a seen candidate,
its candidate translation and objective value, minimal among all seen. -/
def GoodAcc (obj : ℕ × ℕ × ℕ → V3 → ℚ) (candTrans : ℕ × ℕ × ℕ → V3)
    (seen : List (ℕ × ℕ × ℕ)) : Option ((ℕ × ℕ × ℕ) × V3 × ℚ) → Prop
  | none => seen = []
  | some b => b.1 ∈ seen ∧ b.2.1 = candTrans b.1 ∧ b.2.2 = obj b.1 (candTrans b.1) ∧
      ∀ t ∈ seen, b.2.2 ≤ obj t (candTrans t)

/- ----------------------------------------------------------------------
Alignment solver entry (FitterStepAlign._optimiseAlignment, lines
263-270 and 396-407): requires at least 3 correspondence pairs before any
other work; the step's stored rotation/scale/translation are assigned only
after the numerical optimisation succeeds.  The zinc least-squares
optimisation is abstracted as the solver parameter.
---------------------------------------------------------------------- -/

/-- The align step's stored transformation parameters
(FitterStepAlign._rotation, _scale, _translation). -/
structure AlignParams where
  rotation : List ℚ
  scale : ℚ
  translation : List ℚ
deriving DecidableEq

/-- FitterStepAlign._optimiseAlignment: asserts len(pointMap) >= 3 on
entry; on success stores the solver's rotation, scale and translation in
the step; on any failure (assertion or failed optimisation) the exception
propagates and the step's parameters keep their prior values.  The result
is the step's parameters after the call plus a success flag. -/
def optimiseAlignment
    (solver : List (String × (List ℚ) × (List ℚ)) → Option (List ℚ × ℚ × List ℚ))
    (step : AlignParams) (pointMap : List (String × (List ℚ) × (List ℚ))) :
    AlignParams × Bool :=
  if pointMap.length < 3 then (step, false)
  else
    match solver pointMap with
    | some (r, s, t) => ({ rotation := r, scale := s, translation := t }, true)
    | none => (step, false)

/- ----------------------------------------------------------------------
Deformation penalty assignment (Fitter.assignDeformationPenalties,
fitter.py lines 585-661).  The group records hold, per group, what the
code computes before the element loop: whether the entry is the implicit
default (group None appended after the named groups), element membership
of the group's highest-dimension mesh group, and the strain/curvature
tensors with their set-locally/inheritable flags returned by
FitterStepFit.getGroupStrainPenalty / getGroupCurvaturePenalty (that class
is outside the analysed sources; the flags are carried abstractly).
---------------------------------------------------------------------- -/

/-- groupStrainSet = setLocally or ((setLocally is False) and inheritable)
(fitter.py lines 618, 622); setLocally is a Python tri-state
True/False/None. -/
def pySetOrInheritable : Option Bool → Bool → Bool
  | some true, _ => true
  | some false, inheritable => inheritable
  | none, _ => false

/-- One entry of the code's groups list (fitter.py lines 601-624). -/
structure PenaltyGroup where
  isDefault : Bool
  containsElement : ℕ → Bool
  strainPenalty : List ℚ
  strainSetLocally : Option Bool
  strainInheritable : Bool
  curvaturePenalty : List ℚ
  curvatureSetLocally : Option Bool
  curvatureInheritable : Bool

/-- The group's strain tensor counts as set-or-inheritable. -/
def PenaltyGroup.strainSet (g : PenaltyGroup) : Bool :=
  pySetOrInheritable g.strainSetLocally g.strainInheritable

/-- The group's curvature tensor counts as set-or-inheritable. -/
def PenaltyGroup.curvatureSet (g : PenaltyGroup) : Bool :=
  pySetOrInheritable g.curvatureSetLocally g.curvatureInheritable

/-- groupStrainPenaltyNonZero = any(s > 0.0 for s in groupStrainPenalty)
(fitter.py line 617). -/
def groupStrainNonZero (g : PenaltyGroup) : Bool :=
  g.strainPenalty.any fun s => decide (0 < s)

/-- groupCurvaturePenaltyNonZero (fitter.py line 621). -/
def groupCurvatureNonZero (g : PenaltyGroup) : Bool :=
  g.curvaturePenalty.any fun s => decide (0 < s)

/-- Python truthiness of the loop's strainPenalty/curvaturePenalty
variable: None and the empty list are falsy. -/
def pyFalsyTensor : Option (List ℚ) → Bool
  | none => true
  | some l => l.isEmpty

/-- The per-element group scan of assignDeformationPenalties (fitter.py
lines 632-646), carrying (strainPenalty, strainPenaltyNonZero) and
(curvaturePenalty, curvaturePenaltyNonZero). -/
def penaltyLoop (e : ℕ) : List PenaltyGroup → (Option (List ℚ) × Bool) →
    (Option (List ℚ) × Bool) → ((Option (List ℚ) × Bool) × (Option (List ℚ) × Bool))
  | [], sp, cp => (sp, cp)
  | g :: gs, sp, cp =>
    if g.isDefault || g.containsElement e then
      penaltyLoop e gs
        (if pyFalsyTensor sp.1 && (g.strainSet || g.isDefault) then
          (some g.strainPenalty, groupStrainNonZero g)
        else sp)
        (if pyFalsyTensor cp.1 && (g.curvatureSet || g.isDefault) then
          (some g.curvaturePenalty, groupCurvatureNonZero g)
        else cp)
    else penaltyLoop e gs sp cp

/-- Strain-only projection of the group scan (the strain accumulator never
reads the curvature accumulator). -/
def strainLoop (e : ℕ) : List PenaltyGroup → (Option (List ℚ) × Bool) →
    (Option (List ℚ) × Bool)
  | [], sp => sp
  | g :: gs, sp =>
    if g.isDefault || g.containsElement e then
      strainLoop e gs
        (if pyFalsyTensor sp.1 && (g.strainSet || g.isDefault) then
          (some g.strainPenalty, groupStrainNonZero g)
        else sp)
    else strainLoop e gs sp

/-- Curvature-only projection of the group scan. -/
def curvatureLoop (e : ℕ) : List PenaltyGroup → (Option (List ℚ) × Bool) →
    (Option (List ℚ) × Bool)
  | [], cp => cp
  | g :: gs, cp =>
    if g.isDefault || g.containsElement e then
      curvatureLoop e gs
        (if pyFalsyTensor cp.1 && (g.curvatureSet || g.isDefault) then
          (some g.curvaturePenalty, groupCurvatureNonZero g)
        else cp)
    else curvatureLoop e gs cp

/-- The tensors and nonzero flags the element loop resolves for element e:
scan the groups list starting from (None, False) accumulators. -/
def resolvePenalties (groups : List PenaltyGroup) (e : ℕ) :
    (Option (List ℚ) × Bool) × (Option (List ℚ) × Bool) :=
  penaltyLoop e groups (none, false) (none, false)

/-- Whether an optional tensor has any positive component (an unassigned
tensor has none). -/
def tensorAnyPos (o : Option (List ℚ)) : Bool :=
  (o.getD []).any fun s => decide (0 < s)

/-- The three active element sets built by assignDeformationPenalties. -/
structure ActiveSets where
  strainActive : List ℕ
  curvatureActive : List ℕ
  deformActive : List ℕ
deriving DecidableEq

/-- Element-loop body: resolve the element's penalties and append it to
each active set whose nonzero flag holds (fitter.py lines 650-659). -/
def assignElementStep (groups : List PenaltyGroup) (sets : ActiveSets) (e : ℕ) :
    ActiveSets :=
  let r := resolvePenalties groups e
  { strainActive := sets.strainActive ++ (if r.1.2 then [e] else []),
    curvatureActive := sets.curvatureActive ++ (if r.2.2 then [e] else []),
    deformActive := sets.deformActive ++ (if r.1.2 || r.2.2 then [e] else []) }

/-- Fitter.assignDeformationPenalties element phase (fitter.py lines
625-661): removeAllElements clears the three prior active sets, then the
element iterator rebuilds them. -/
def assignDeformationPenalties (groups : List PenaltyGroup) (elements : List ℕ)
    (prior : ActiveSets) : ActiveSets :=
  let cleared : ActiveSets :=
    { strainActive := [], curvatureActive := [], deformActive := [] }
  elements.foldl (assignElementStep groups) cleared

/- ----------------------------------------------------------------------
Settings serialisation (Fitter.encodeSettingsJSON / decodeSettingsJSON,
fitter.py lines 80-115; FitterStepAlign.encodeSettingsJSONDict /
decodeSettingsJSONDict, fitterstepalign.py lines 70-98).  The JSON text
layer (json.dumps / json.loads) is external plumbing; the embedding works
on the dict structure it round-trips.  The FitterStep base-class dict
(group settings) and the Config and Fit step payloads live in
fitterstep.py, fitterstepconfig.py and fitterstepfit.py, which are outside
the analysed sources; they are modelled from the spec as opaque per-step
payloads carried under the step's type discriminator.
---------------------------------------------------------------------- -/

/-- Settings of a FitterStepAlign: the base FitterStep group settings
(modelled from the spec: fitterstep.py is not among the analysed sources;
each stepRecord carries type-specific fields under a type discriminator)
plus the five align fields (fitterstepalign.py __init__). -/
structure AlignStepSettings where
  base : List (String × ℚ)
  alignGroups : Bool
  alignMarkers : Bool
  rotation : List ℚ
  scale : ℚ
  translation : List ℚ
deriving DecidableEq

/-- A freshly constructed FitterStepAlign (fitterstepalign.py lines
58-64), the state decodeSettingsJSONDict starts from. -/
def freshAlignStepSettings : AlignStepSettings :=
  { base := [], alignGroups := false, alignMarkers := false,
    rotation := [0, 0, 0], scale := 1, translation := [0, 0, 0] }

/-- The JSON dict of an align step as decode receives it: align fields are
optional (decode backfills missing keys from the current step). -/
structure AlignStepDict where
  base : List (String × ℚ)
  alignGroups : Option Bool
  alignMarkers : Option Bool
  rotation : Option (List ℚ)
  scale : Option ℚ
  translation : Option (List ℚ)
deriving DecidableEq

/-- FitterStepAlign.encodeSettingsJSONDict (fitterstepalign.py lines
84-98): the base dict updated with the five align fields. -/
def encodeAlignSettingsJSONDict (s : AlignStepSettings) : AlignStepDict :=
  { base := s.base,
    alignGroups := some s.alignGroups,
    alignMarkers := some s.alignMarkers,
    rotation := some s.rotation,
    scale := some s.scale,
    translation := some s.translation }

/-- FitterStepAlign.decodeSettingsJSONDict (fitterstepalign.py lines
70-82): dct = self.encodeSettingsJSONDict(); dct.update(dctIn); then read
every field from dct, so a key missing from dctIn keeps the current
step's value. -/
def decodeAlignSettingsJSONDict (cur : AlignStepSettings) (dctIn : AlignStepDict) :
    AlignStepSettings :=
  { base := dctIn.base,
    alignGroups := dctIn.alignGroups.getD cur.alignGroups,
    alignMarkers := dctIn.alignMarkers.getD cur.alignMarkers,
    rotation := dctIn.rotation.getD cur.rotation,
    scale := dctIn.scale.getD cur.scale,
    translation := dctIn.translation.getD cur.translation }

/-- A fitter step's settings, as a tagged variant.  Config and Fit
payloads are modelled from the spec (their modules are not among the
analysed sources) as opaque dict contents. -/
inductive StepSettings where
  | config (payload : List (String × ℚ))
  | align (s : AlignStepSettings)
  | fit (payload : List (String × ℚ))
deriving DecidableEq

/-- Whether a step settings record is a Config-kind step. -/
def StepSettings.isConfig : StepSettings → Bool
  | .config _ => true
  | _ => false

/-- A stepRecord of the settings JSON: the type discriminator
(_jsonTypeId) with the type-specific dict. -/
inductive StepRecord where
  | configRec (payload : List (String × ℚ))
  | alignRec (d : AlignStepDict)
  | fitRec (payload : List (String × ℚ))
deriving DecidableEq

/-- Encode one fitter step to its stepRecord. -/
def encodeStepSettings : StepSettings → StepRecord
  | .config p => .configRec p
  | .align s => .alignRec (encodeAlignSettingsJSONDict s)
  | .fit p => .fitRec p

/-- Decode one stepRecord: construct a fresh step of the discriminated
kind and decode the dict into it (the decoder callback of
Fitter.decodeSettingsJSON). -/
def decodeStepRecord : StepRecord → StepSettings
  | .configRec p => .config p
  | .alignRec d => .align (decodeAlignSettingsJSONDict freshAlignStepSettings d)
  | .fitRec p => .fit p

/-- The serialisable settings of a Fitter (fitter.py lines 103-115). -/
structure FitterSettings where
  modelCoordinatesFieldName : Option String
  dataCoordinatesFieldName : Option String
  fibreFieldName : Option String
  markerGroupName : Option String
  diagnosticLevel : ℕ
  fitterSteps : List StepSettings
deriving DecidableEq

/-- The top-level settings JSON object. -/
structure SettingsDict where
  modelCoordinatesField : Option String
  dataCoordinatesField : Option String
  fibreField : Option String
  markerGroup : Option String
  diagnosticLevel : ℕ
  fitterSteps : List StepRecord
deriving DecidableEq

/-- Fitter.encodeSettingsJSON (fitter.py lines 103-115). -/
def Fitter.encodeSettingsJSON (f : FitterSettings) : SettingsDict :=
  { modelCoordinatesField := f.modelCoordinatesFieldName,
    dataCoordinatesField := f.dataCoordinatesFieldName,
    fibreField := f.fibreFieldName,
    markerGroup := f.markerGroupName,
    diagnosticLevel := f.diagnosticLevel,
    fitterSteps := f.fitterSteps.map encodeStepSettings }

/-- Fitter.decodeSettingsJSON (fitter.py lines 80-101): decode the step
list; if it is nonempty and starts with a Config step, install it and read
the five settings fields; otherwise restore the old step list, touch
nothing else, and fail (assert).  Returns the fitter settings after the
call and a success flag. -/
def Fitter.decodeSettingsJSON (f : FitterSettings) (s : SettingsDict) :
    FitterSettings × Bool :=
  let newSteps := s.fitterSteps.map decodeStepRecord
  match newSteps with
  | [] => (f, false)
  | step0 :: rest =>
    if step0.isConfig then
      ({ modelCoordinatesFieldName := s.modelCoordinatesField,
         dataCoordinatesFieldName := s.dataCoordinatesField,
         fibreFieldName := s.fibreField,
         markerGroupName := s.markerGroup,
         diagnosticLevel := s.diagnosticLevel,
         fitterSteps := step0 :: rest }, true)
    else (f, false)

/- ----------------------------------------------------------------------
Model export (Fitter.writeModel, fitter.py lines 1185-1212): the model
coordinates field is temporarily renamed with a "fitted " prefix, the
region is written (external), the original name is restored, and only
then is the write result asserted, so the name is restored even when the
write failed.
---------------------------------------------------------------------- -/

/-- The fitter state writeModel touches: the stored model coordinates
field name, the zinc field's current name, and the rest of the settings
(untouched). -/
structure ModelExportState where
  modelCoordinatesFieldName : String
  fieldName : String
  otherSettings : FitterSettings
deriving DecidableEq

/-- Fitter.writeModel with the external region write abstracted as a
function of the output field name.  Returns the state after the call, the
output field name the geometry was exported under, and the write result
(false models the assert firing after the name was restored). -/
def Fitter.writeModel (write : String → Bool) (st : ModelExportState) :
    ModelExportState × String × Bool :=
  let outputCoordinatesFieldName := "fitted " ++ st.modelCoordinatesFieldName
  let renamed : ModelExportState := { st with fieldName := outputCoordinatesFieldName }
  let result := write outputCoordinatesFieldName
  let restored : ModelExportState := { renamed with fieldName := st.modelCoordinatesFieldName }
  (restored, outputCoordinatesFieldName, result)

/- ----------------------------------------------------------------------
Automatic marker matching (FitterStepAlign._doAutoAlign, fitterstepalign.py
lines 241-259).  Model and data markers are dicts name -> centre, in
insertion order; a model marker matches the first data marker whose
stripped, casefolded name equals its own.  When writeDiagnostics is on
(diagnostic level > 0) the matched data marker is popped from the data
dict before the next model marker is processed - the pop statement sits
inside the diagnostics branch.
---------------------------------------------------------------------- -/

/-- Python ASCII case folding of one character (casefold and lower agree
on ASCII). -/
def pyCaseFoldChar (c : Char) : Char :=
  if 65 ≤ c.toNat ∧ c.toNat ≤ 90 then Char.ofNat (c.toNat + 32) else c

/-- Python str.strip(): drop leading and trailing whitespace characters
(modelled for the space, tab, linefeed and carriage-return characters). -/
def pyStripChars (l : List Char) : List Char :=
  ((l.dropWhile fun c => c.toNat = 32 ∨ c.toNat = 9 ∨ c.toNat = 10 ∨ c.toNat = 13).reverse.dropWhile
    fun c => c.toNat = 32 ∨ c.toNat = 9 ∨ c.toNat = 10 ∨ c.toNat = 13).reverse

/-- Python name.strip().casefold() (casefold modelled as ASCII case
folding, adequate for the ASCII marker names considered here). -/
def normName (s : String) : String := String.mk ((pyStripChars s.data).map pyCaseFoldChar)

/-- The model-marker loop (fitterstepalign.py lines 243-256) building the
pointMap entries name -> (model centre, data centre).  The dicts are
association lists with unique keys in insertion order. -/
def markerMatchLoop (writeDiagnostics : Bool) :
    List (String × V3) → List (String × V3) → List (String × V3 × V3)
  | [], _ => []
  | (modelName, modelPos) :: mm, dataMarkers =>
    match dataMarkers.find? (fun d => normName d.1 == normName modelName) with
    | some d =>
      (modelName, modelPos, d.2) ::
        markerMatchLoop writeDiagnostics mm
          (if writeDiagnostics then
            dataMarkers.eraseP (fun d2 => normName d2.1 == normName modelName)
          else dataMarkers)
    | none => markerMatchLoop writeDiagnostics mm dataMarkers

/-- The marker part of the pointMap built by _doAutoAlign at a given
diagnostic level; writeDiagnostics = self.getDiagnosticLevel() > 0
(fitterstepalign.py line 242). -/
def doAutoAlignMarkerMap (diagnosticLevel : ℕ)
    (modelMarkers dataMarkers : List (String × V3)) : List (String × V3 × V3) :=
  markerMatchLoop (decide (0 < diagnosticLevel)) modelMarkers dataMarkers

/- ----------------------------------------------------------------------
Full automatic-alignment point map (FitterStepAlign._doAutoAlign,
fitterstepalign.py lines 199-261): group matching (lines 206-225) adds one
entry per annotation group present in both model and data, keyed by group
name; marker matching (lines 227-259) then writes entries keyed by model
marker name into the same dict.  The group loop's zinc evaluations
(nodeset mean, mesh integrals) are carried as per-group data; the group
loop contains no diagnostics and never reads the diagnostic level.
---------------------------------------------------------------------- -/

/-- Componentwise division of a vector by a scalar
(opencmiss.maths.vectorops.div of the coordinates integral by the mass,
fitterstepalign.py line 223). -/
def vdivs (v : V3) (s : ℚ) : V3 := (v.1 / s, v.2.1 / s, v.2.2 / s)

/-- What the group loop reads per annotation group: whether the group has
a data projection nodeset group and a matching mesh group, the mean of its
data coordinates, and the coordinates integral and mass of its mesh group
(external zinc evaluations, fitterstepalign.py lines 213-223). -/
structure AlignGroupInfo where
  name : String
  hasDataGroup : Bool
  hasMeshGroup : Bool
  meanDataCoordinates : V3
  coordinatesIntegral : V3
  mass : ℚ

/-- The group-matching loop (fitterstepalign.py lines 212-224): one
pointMap entry (group name -> (model mean, data mean)) per group having
both a data projection nodeset group and a mesh group; group names are
unique, and the loop reads no diagnostic state. -/
def groupMatchEntries : List AlignGroupInfo → List (String × V3 × V3)
  | [] => []
  | g :: gs =>
    if g.hasDataGroup && g.hasMeshGroup then
      (g.name, vdivs g.coordinatesIntegral g.mass, g.meanDataCoordinates) ::
        groupMatchEntries gs
    else groupMatchEntries gs

/-- Python dict assignment pointMap[name] = value: replace the value in
place when the key exists, else append. -/
def pyDictInsert : List (String × V3 × V3) → String → V3 × V3 → List (String × V3 × V3)
  | [], k, v => [(k, v)]
  | (k', v') :: rest, k, v =>
    if k' = k then (k', v) :: rest else (k', v') :: pyDictInsert rest k v

/-- The marker loop threading the shared pointMap dict (fitterstepalign.py
lines 243-256): each match writes pointMap[modelName] immediately; the pop
of the matched data marker happens only when writeDiagnostics is on. -/
def markerMatchLoopMap (writeDiagnostics : Bool) :
    List (String × V3) → List (String × V3) → List (String × V3 × V3) →
      List (String × V3 × V3)
  | [], _, pointMap => pointMap
  | (modelName, modelPos) :: mm, dataMarkers, pointMap =>
    match dataMarkers.find? (fun d => normName d.1 == normName modelName) with
    | some d =>
      markerMatchLoopMap writeDiagnostics mm
        (if writeDiagnostics then
          dataMarkers.eraseP (fun d2 => normName d2.1 == normName modelName)
        else dataMarkers)
        (pyDictInsert pointMap modelName (modelPos, d.2))
    | none => markerMatchLoopMap writeDiagnostics mm dataMarkers pointMap

/-- The full pointMap built by _doAutoAlign at a given diagnostic level:
group entries first (when alignGroups is set, lines 206-225), then marker
matching into the same dict (when alignMarkers is set, lines 227-259);
writeDiagnostics = diagnosticLevel > 0. -/
def doAutoAlignPointMap (diagnosticLevel : ℕ) (alignGroups alignMarkers : Bool)
    (groups : List AlignGroupInfo) (modelMarkers dataMarkers : List (String × V3)) :
    List (String × V3 × V3) :=
  let pointMap := if alignGroups then groupMatchEntries groups else []
  if alignMarkers then
    markerMatchLoopMap (decide (0 < diagnosticLevel)) modelMarkers dataMarkers pointMap
  else pointMap

/-- A V3 position as the 3-component coordinate list _optimiseAlignment
receives. -/
def v3ToList (v : V3) : List ℚ := [v.1, v.2.1, v.2.2]

/- ======================================================================
Theorems
====================================================================== -/

/- C3 helper lemmas: counter invariant and mask determinism of the
data-proportion accumulator. -/

theorem acceptedList_length_eq_runAccum {α : Type} (p : ℚ) (xs : List α) :
    ∀ c : ℚ, (acceptedList p c xs).length = (runAccum p c xs.length).2 := by
  induction xs with
  | nil => intro c; simp [acceptedList, runAccum]
  | cons x xs ih =>
    intro c
    simp only [acceptedList, runAccum, List.length_cons]
    by_cases h : (1 : ℚ) ≤ c + p
    · simp [h, ih]
    · simp [h, ih]

theorem acceptedList_eq_applyMask {α : Type} (p : ℚ) (xs : List α) :
    ∀ c : ℚ, acceptedList p c xs = applyMask (acceptMask p c xs.length) xs := by
  induction xs with
  | nil => intro c; simp [acceptedList, acceptMask, applyMask]
  | cons x xs ih =>
    intro c
    simp only [acceptedList, acceptMask, List.length_cons]
    by_cases h : (1 : ℚ) ≤ c + p
    · simp [h, applyMask, ih]
    · simp [h, applyMask, ih]

theorem runAccum_invariant (p : ℚ) (hp0 : 0 < p) (hp1 : p ≤ 1) :
    ∀ (n : ℕ) (c : ℚ), 0 ≤ c → c < 1 →
      (runAccum p c n).1 = c + n * p - (runAccum p c n).2 ∧
      0 ≤ (runAccum p c n).1 ∧ (runAccum p c n).1 < 1 := by
  intro n
  induction n with
  | zero => intro c h0 h1; simp [runAccum, h0, h1]
  | succ n ih =>
    intro c h0 h1
    simp only [runAccum]
    by_cases h : (1 : ℚ) ≤ c + p
    · have h0' : (0 : ℚ) ≤ c + p - 1 := by linarith
      have h1' : c + p - 1 < 1 := by linarith
      obtain ⟨hev, hge, hlt⟩ := ih (c + p - 1) h0' h1'
      refine ⟨?_, by simpa [h] using hge, by simpa [h] using hlt⟩
      simp only [h, if_true]
      push_cast
      rw [hev]
      ring
    · have h1' : c + p < 1 := lt_of_not_le h
      have h0' : (0 : ℚ) ≤ c + p := by linarith
      obtain ⟨hev, hge, hlt⟩ := ih (c + p) h0' h1'
      refine ⟨?_, by simpa [h] using hge, by simpa [h] using hlt⟩
      simp only [h, if_false]
      push_cast
      rw [hev]
      ring

/-- Claim C3: for every ordered list of eligible points and every
proportion p with 0 < p <= 1, the running-accumulator subsampling scheme
(counter starts at 0.5, p added per point, accept iff the counter reaches
1.0, then subtract 1.0) accepts round(p * N) points to within 1, and the
accepted positions are a function of p and the list length alone, so the
same ordered input always yields the same accepted points. -/
theorem dataProportion_sampling {α : Type} (p : ℚ) (xs : List α)
    (hp0 : 0 < p) (hp1 : p ≤ 1) :
    |((acceptedList p (1/2) xs).length : ℤ) - round (p * xs.length)| ≤ 1 ∧
    acceptedList p (1/2) xs = applyMask (acceptMask p (1/2) xs.length) xs := by
  refine ⟨?_, acceptedList_eq_applyMask p xs (1/2)⟩
  rw [acceptedList_length_eq_runAccum]
  set n := xs.length with hn
  have h0 : (0 : ℚ) ≤ 1/2 := by norm_num
  have h1 : (1 : ℚ)/2 < 1 := by norm_num
  obtain ⟨hev, hge, hlt⟩ := runAccum_invariant p hp0 hp1 n (1/2) h0 h1
  set k := (runAccum p (1/2) n).2 with hk
  -- counter = 1/2 + n p - k with counter in [0, 1)
  have hklo : (n : ℚ) * p - 1/2 < (k : ℚ) := by
    have := hlt
    rw [hev] at this
    linarith
  have hkhi : (k : ℚ) ≤ (n : ℚ) * p + 1/2 := by
    have := hge
    rw [hev] at this
    linarith
  have habs : |(k : ℚ) - (n : ℚ) * p| ≤ 1/2 := by
    rw [abs_le]
    constructor <;> linarith
  have hround : |(round (p * (n : ℚ)) : ℚ) - p * (n : ℚ)| ≤ 1/2 := by
    rw [abs_sub_comm]
    exact abs_sub_round (p * (n : ℚ))
  have hq : |((k : ℤ) : ℚ) - ((round (p * (n : ℚ)) : ℤ) : ℚ)| ≤ 1 := by
    have : ((k : ℤ) : ℚ) - ((round (p * (n : ℚ)) : ℤ) : ℚ) =
        ((k : ℚ) - (n : ℚ) * p) - ((round (p * (n : ℚ)) : ℚ) - p * (n : ℚ)) := by
      push_cast
      ring
    rw [this]
    calc |((k : ℚ) - (n : ℚ) * p) - ((round (p * (n : ℚ)) : ℚ) - p * (n : ℚ))| ≤
        |(k : ℚ) - (n : ℚ) * p| + |(round (p * (n : ℚ)) : ℚ) - p * (n : ℚ)| := abs_sub _ _
      _ ≤ 1/2 + 1/2 := add_le_add habs hround
      _ = 1 := by norm_num
  have : |(k : ℤ) - round (p * (n : ℚ))| ≤ 1 := by
    exact_mod_cast (by push_cast at hq ⊢; exact hq : |((k - round (p * (n : ℚ)) : ℤ) : ℚ)| ≤ 1)
  exact this

/-- Witness for C3 at p = 2/3 over five points: 3 points are accepted and
round(2/3 * 5) = 3. -/
theorem dataProportion_sampling_witness :
    |((acceptedList (2/3 : ℚ) (1/2) [0, 1, 2, 3, 4]).length : ℤ) -
        round ((2/3 : ℚ) * ([0, 1, 2, 3, 4] : List ℕ).length)| ≤ 1 ∧
    acceptedList (2/3 : ℚ) (1/2) [0, 1, 2, 3, 4] =
      applyMask (acceptMask (2/3 : ℚ) (1/2) ([0, 1, 2, 3, 4] : List ℕ).length) [0, 1, 2, 3, 4] :=
  dataProportion_sampling (2/3 : ℚ) [0, 1, 2, 3, 4] (by norm_num) (by norm_num)

/- C1: the reload decision of Fitter.run.  The code tests only the
immediately following step's hasRun flag (fitter.py line 432), not
whether any later step has run.  The two differ on reachable states:
after running all steps, addFitterStep (fitter.py lines 154-164) can
insert a new, unrun step mid-list, giving hasRun flags such as
[run, not-run, run]. -/

/-- Counterexample for C1: on the pipeline state with hasRun flags
[run, not-run, run] (reachable by running all steps and then inserting a
new step after the first with addFitterStep), running up to the first
step performs no reload and returns False although the target step has
run and a step after it (the third) has also run - the code tests only
the immediately following step, refuting the claim's "some step after it
has also run" condition. -/
theorem Fitter.run_reload_counterexample :
    (Fitter.run (⟨0, [⟨fun s => s + 1, true⟩, ⟨fun s => s * 2, false⟩,
        ⟨fun s => s + 5, true⟩], 7⟩ : FitterState ℕ) 0).2 = false ∧
    hasRunAt (⟨0, [⟨fun s => s + 1, true⟩, ⟨fun s => s * 2, false⟩,
      ⟨fun s => s + 5, true⟩], 7⟩ : FitterState ℕ) 0 = true ∧
    (0 : ℕ) < 2 ∧
    2 < (⟨0, [⟨fun s => s + 1, true⟩, ⟨fun s => s * 2, false⟩,
      ⟨fun s => s + 5, true⟩], 7⟩ : FitterState ℕ).steps.length ∧
    hasRunAt (⟨0, [⟨fun s => s + 1, true⟩, ⟨fun s => s * 2, false⟩,
      ⟨fun s => s + 5, true⟩], 7⟩ : FitterState ℕ) 2 = true ∧
    (Fitter.run (⟨0, [⟨fun s => s + 1, true⟩, ⟨fun s => s * 2, false⟩,
        ⟨fun s => s + 5, true⟩], 7⟩ : FitterState ℕ) 0).1 =
      runStepAt (⟨0, [⟨fun s => s + 1, true⟩, ⟨fun s => s * 2, false⟩,
        ⟨fun s => s + 5, true⟩], 7⟩ : FitterState ℕ) 0 :=
  ⟨rfl, rfl, by decide, by decide, rfl, rfl⟩

/-- Claim C1 (amended): for every pipeline and every target step,
run(endStep) performs a full reload (rebuilding the model, clearing every
step's hasRun flag via load, then replaying every step from the second
through the target in order) exactly when the target step has already run
and the immediately following step exists and has also run; in all other
cases no reload occurs and the target is reached incrementally (the first
step being force-rerun when it is the target); the returned boolean
reports whether the reload occurred.  (As frozen - "some step after it
has also run" - the claim fails: see the counterexample.) -/
theorem Fitter.run_reload_next_iff {σ : Type} (m : FitterState σ) (endIndex : ℕ)
    (he : endIndex < m.steps.length) :
    ((Fitter.run m endIndex).2 = true ↔
      (hasRunAt m endIndex = true ∧ endIndex + 1 < m.steps.length ∧
        hasRunAt m (endIndex + 1) = true)) ∧
    ((Fitter.run m endIndex).2 = true →
      (Fitter.run m endIndex).1 = Fitter.reloadReplay m endIndex) ∧
    ((Fitter.run m endIndex).2 = false →
      (Fitter.run m endIndex).1 =
        if endIndex = 0 then runStepAt m 0 else Fitter.runIncremental m endIndex) := by
  by_cases hC : (hasRunAt m endIndex && decide (endIndex < m.steps.length - 1)
      && hasRunAt m (endIndex + 1)) = true
  · rw [Bool.and_eq_true, Bool.and_eq_true, decide_eq_true_eq] at hC
    obtain ⟨⟨h1, h2⟩, h3⟩ := hC
    have hrun : Fitter.run m endIndex = (Fitter.reloadReplay m endIndex, true) := by
      simp [Fitter.run, h1, h2, h3]
    rw [hrun]
    refine ⟨?_, fun _ => rfl, ?_⟩
    · simp only [true_iff]
      exact ⟨h1, by omega, h3⟩
    · intro h
      simp at h
  · have hrun : Fitter.run m endIndex =
        ((if endIndex = 0 then runStepAt m 0 else Fitter.runIncremental m endIndex), false) := by
      simp only [Fitter.run]
      rw [if_neg hC]
      by_cases h0 : endIndex = 0
      · rw [if_pos h0, if_pos h0]
      · rw [if_neg h0, if_neg h0]
    rw [hrun]
    refine ⟨?_, ?_, fun _ => rfl⟩
    · simp only [Bool.false_eq_true, false_iff]
      rintro ⟨h1, hlen, h3⟩
      apply hC
      rw [h1, h3]
      simp only [Bool.true_and, Bool.and_true, decide_eq_true_eq]
      omega
    · intro h
      simp at h

/-- Witness for C1 (amended): a three-step pipeline whose first two steps
have run; running up to the first step reloads exactly as the amended
equivalence states. -/
theorem Fitter.run_reload_next_iff_witness :
    ((Fitter.run (⟨0, [⟨fun s => s + 1, true⟩, ⟨fun s => s * 2, true⟩,
        ⟨fun s => s + 5, false⟩], 7⟩ : FitterState ℕ) 0).2 = true ↔
      (hasRunAt (⟨0, [⟨fun s => s + 1, true⟩, ⟨fun s => s * 2, true⟩,
          ⟨fun s => s + 5, false⟩], 7⟩ : FitterState ℕ) 0 = true ∧
        0 + 1 < (⟨0, [⟨fun s => s + 1, true⟩, ⟨fun s => s * 2, true⟩,
          ⟨fun s => s + 5, false⟩], 7⟩ : FitterState ℕ).steps.length ∧
        hasRunAt (⟨0, [⟨fun s => s + 1, true⟩, ⟨fun s => s * 2, true⟩,
          ⟨fun s => s + 5, false⟩], 7⟩ : FitterState ℕ) (0 + 1) = true)) :=
  (Fitter.run_reload_next_iff (⟨0, [⟨fun s => s + 1, true⟩, ⟨fun s => s * 2, true⟩,
    ⟨fun s => s + 5, false⟩], 7⟩ : FitterState ℕ) 0 (by decide)).1

/- C2 helper: the minimum-tracking fold maintains the GoodAcc invariant. -/

theorem gridSearch_foldl_good (obj : ℕ × ℕ × ℕ → V3 → ℚ) (candTrans : ℕ × ℕ × ℕ → V3) :
    ∀ (l : List (ℕ × ℕ × ℕ)) (acc : Option ((ℕ × ℕ × ℕ) × V3 × ℚ))
      (seen : List (ℕ × ℕ × ℕ)),
      GoodAcc obj candTrans seen acc →
      GoodAcc obj candTrans (seen ++ l) (l.foldl (gridSearchStep obj candTrans) acc) := by
  intro l
  induction l with
  | nil =>
    intro acc seen h
    simpa using h
  | cons a l ih =>
    intro acc seen h
    have hstep : GoodAcc obj candTrans (seen ++ [a]) (gridSearchStep obj candTrans acc a) := by
      cases acc with
      | none =>
        have hs : seen = [] := h
        subst hs
        show GoodAcc obj candTrans ([] ++ [a]) (some (a, candTrans a, obj a (candTrans a)))
        refine ⟨by simp, rfl, rfl, ?_⟩
        intro t htm
        simp only [List.nil_append, List.mem_singleton] at htm
        subst htm
        exact le_refl _
      | some b =>
        obtain ⟨hmem, ht, hv, hmin⟩ := h
        simp only [gridSearchStep]
        by_cases hlt : obj a (candTrans a) < b.2.2
        · rw [if_pos hlt]
          refine ⟨List.mem_append_right seen (List.mem_singleton_self a), rfl, rfl, ?_⟩
          intro t htm
          rcases List.mem_append.mp htm with hts | hta
          · exact le_trans (le_of_lt hlt) (hmin t hts)
          · rw [List.mem_singleton] at hta
            subst hta
            exact le_refl _
        · rw [if_neg hlt]
          refine ⟨List.mem_append_left [a] hmem, ht, hv, ?_⟩
          intro t htm
          rcases List.mem_append.mp htm with hts | hta
          · exact hmin t hts
          · rw [List.mem_singleton] at hta
            subst hta
            exact le_of_not_lt hlt
    have hrec := ih (gridSearchStep obj candTrans acc a) (seen ++ [a]) hstep
    simpa [List.append_assoc] using hrec

/-- Claim C2: the discrete rotation search evaluates the objective at
every Euler-angle triple of the fixed grid - which is exactly the
spec's grid (azimuth in {0,90,180,270} degrees, elevation in
{0,90,180,270} restricted to {0,180} when roll is nonzero, roll in
{0,90}), 24 candidates, at most 32 - each candidate carrying translation
seed-translation - scale * (R.modelCentroid - modelCentroid), and the
retained triple attains the minimum objective value over the grid. -/
theorem alignGridSearch_spec (obj : ℕ × ℕ × ℕ → V3 → ℚ) (R : ℕ × ℕ × ℕ → V3 → V3)
    (scaleFactor : ℚ) (modelCM translationOffset : V3) :
    gridAngles = claimGridAngles ∧
    gridAngles.length = 24 ∧
    gridAngles.length ≤ 32 ∧
    ∃ best,
      gridSearch obj (candidateTranslation R scaleFactor modelCM translationOffset) =
        some (best, candidateTranslation R scaleFactor modelCM translationOffset best,
          obj best (candidateTranslation R scaleFactor modelCM translationOffset best)) ∧
      best ∈ gridAngles ∧
      ∀ t ∈ gridAngles,
        obj best (candidateTranslation R scaleFactor modelCM translationOffset best) ≤
          obj t (candidateTranslation R scaleFactor modelCM translationOffset t) := by
  refine ⟨by decide, by decide, by decide, ?_⟩
  set ct := candidateTranslation R scaleFactor modelCM translationOffset with hct
  have hne : gridAngles ≠ [] := by decide
  have h0 : GoodAcc obj ct [] none := rfl
  have hgood := gridSearch_foldl_good obj ct gridAngles none [] h0
  rw [List.nil_append] at hgood
  cases hres : gridAngles.foldl (gridSearchStep obj ct) none with
  | none =>
    rw [hres] at hgood
    exact absurd hgood hne
  | some b =>
    rw [hres] at hgood
    obtain ⟨hmem, ht, hv, hmin⟩ := hgood
    have hb : b = (b.1, ct b.1, obj b.1 (ct b.1)) := by
      obtain ⟨x, y, z⟩ := b
      simp only at ht hv
      rw [ht, hv]
    refine ⟨b.1, ?_, hmem, fun t htm => ?_⟩
    · rw [gridSearch, hres, ← hb]
    · rw [← hv]
      exact hmin t htm

/-- Witness for C2: at the trivially zero objective the search still
covers the full 24-candidate grid. -/
theorem alignGridSearch_spec_witness : gridAngles.length = 24 :=
  (alignGridSearch_spec (fun _ _ => (0 : ℚ)) (fun _ v => v) 1
    (((0 : ℚ), (0 : ℚ), (0 : ℚ)) : V3) (((0 : ℚ), (0 : ℚ), (0 : ℚ)) : V3)).2.1

/- C4/C5 helpers: the element scan factors into independent strain and
curvature scans; an assigned (nonempty) tensor is never overwritten; the
scan over the named groups followed by the default resolves to the first
matching set-or-inheritable group. -/

theorem penaltyLoop_eq_marginals (e : ℕ) :
    ∀ (gs : List PenaltyGroup) (sp cp : Option (List ℚ) × Bool),
      penaltyLoop e gs sp cp = (strainLoop e gs sp, curvatureLoop e gs cp) := by
  intro gs
  induction gs with
  | nil => intro sp cp; rfl
  | cons g gs ih =>
    intro sp cp
    simp only [penaltyLoop, strainLoop, curvatureLoop]
    by_cases hg : (g.isDefault || g.containsElement e) = true
    · rw [if_pos hg, if_pos hg, if_pos hg]
      exact ih _ _
    · rw [if_neg hg, if_neg hg, if_neg hg]
      exact ih _ _

theorem strainLoop_assigned (e : ℕ) (t : List ℚ) (nz : Bool) (hne : t ≠ []) :
    ∀ gs : List PenaltyGroup, strainLoop e gs (some t, nz) = (some t, nz) := by
  have hf : pyFalsyTensor (some t) = false := by
    cases t with
    | nil => exact absurd rfl hne
    | cons a t => rfl
  intro gs
  induction gs with
  | nil => rfl
  | cons g gs ih =>
    simp only [strainLoop, hf, Bool.false_and, if_false]
    by_cases hg : (g.isDefault || g.containsElement e) = true
    · rw [if_pos hg]
      exact ih
    · rw [if_neg hg]
      exact ih

theorem curvatureLoop_assigned (e : ℕ) (t : List ℚ) (nz : Bool) (hne : t ≠ []) :
    ∀ gs : List PenaltyGroup, curvatureLoop e gs (some t, nz) = (some t, nz) := by
  have hf : pyFalsyTensor (some t) = false := by
    cases t with
    | nil => exact absurd rfl hne
    | cons a t => rfl
  intro gs
  induction gs with
  | nil => rfl
  | cons g gs ih =>
    simp only [curvatureLoop, hf, Bool.false_and, if_false]
    by_cases hg : (g.isDefault || g.containsElement e) = true
    · rw [if_pos hg]
      exact ih
    · rw [if_neg hg]
      exact ih

theorem strainLoop_named (e : ℕ) (dg : PenaltyGroup) (hdef : dg.isDefault = true) :
    ∀ named : List PenaltyGroup,
      (∀ g ∈ named, g.isDefault = false) → (∀ g ∈ named, g.strainPenalty ≠ []) →
      strainLoop e (named ++ [dg]) (none, false) =
        match named.find? (fun g => g.containsElement e && g.strainSet) with
        | some g => (some g.strainPenalty, groupStrainNonZero g)
        | none => (some dg.strainPenalty, groupStrainNonZero dg) := by
  intro named
  induction named with
  | nil =>
    intro _ _
    simp only [List.nil_append, List.find?_nil]
    simp [strainLoop, hdef, pyFalsyTensor]
  | cons g gs ih =>
    intro hnd hne
    have hgd : g.isDefault = false := hnd g (List.mem_cons_self g gs)
    have hgne : g.strainPenalty ≠ [] := hne g (List.mem_cons_self g gs)
    simp only [List.cons_append, strainLoop, List.find?_cons, hgd, Bool.false_or,
      Bool.or_false, pyFalsyTensor, Bool.true_and]
    by_cases hc : g.containsElement e = true
    · rw [if_pos hc]
      by_cases hs : g.strainSet = true
      · rw [if_pos hs, strainLoop_assigned e g.strainPenalty (groupStrainNonZero g) hgne]
        have hp : (g.containsElement e && g.strainSet) = true := by rw [hc, hs]; rfl
        rw [hp]
      · rw [if_neg hs]
        have hp : (g.containsElement e && g.strainSet) = false := by
          rw [hc]
          simp only [Bool.true_and]
          exact Bool.eq_false_iff.mpr hs
        rw [hp]
        exact ih (fun g hg => hnd g (List.mem_cons_of_mem _ hg))
          (fun g hg => hne g (List.mem_cons_of_mem _ hg))
    · rw [if_neg hc]
      have hp : (g.containsElement e && g.strainSet) = false := by
        rw [Bool.eq_false_iff.mpr hc]
        rfl
      rw [hp]
      exact ih (fun g hg => hnd g (List.mem_cons_of_mem _ hg))
        (fun g hg => hne g (List.mem_cons_of_mem _ hg))

theorem curvatureLoop_named (e : ℕ) (dg : PenaltyGroup) (hdef : dg.isDefault = true) :
    ∀ named : List PenaltyGroup,
      (∀ g ∈ named, g.isDefault = false) → (∀ g ∈ named, g.curvaturePenalty ≠ []) →
      curvatureLoop e (named ++ [dg]) (none, false) =
        match named.find? (fun g => g.containsElement e && g.curvatureSet) with
        | some g => (some g.curvaturePenalty, groupCurvatureNonZero g)
        | none => (some dg.curvaturePenalty, groupCurvatureNonZero dg) := by
  intro named
  induction named with
  | nil =>
    intro _ _
    simp only [List.nil_append, List.find?_nil]
    simp [curvatureLoop, hdef, pyFalsyTensor]
  | cons g gs ih =>
    intro hnd hne
    have hgd : g.isDefault = false := hnd g (List.mem_cons_self g gs)
    have hgne : g.curvaturePenalty ≠ [] := hne g (List.mem_cons_self g gs)
    simp only [List.cons_append, curvatureLoop, List.find?_cons, hgd, Bool.false_or,
      Bool.or_false, pyFalsyTensor, Bool.true_and]
    by_cases hc : g.containsElement e = true
    · rw [if_pos hc]
      by_cases hs : g.curvatureSet = true
      · rw [if_pos hs, curvatureLoop_assigned e g.curvaturePenalty (groupCurvatureNonZero g) hgne]
        have hp : (g.containsElement e && g.curvatureSet) = true := by rw [hc, hs]; rfl
        rw [hp]
      · rw [if_neg hs]
        have hp : (g.containsElement e && g.curvatureSet) = false := by
          rw [hc]
          simp only [Bool.true_and]
          exact Bool.eq_false_iff.mpr hs
        rw [hp]
        exact ih (fun g hg => hnd g (List.mem_cons_of_mem _ hg))
          (fun g hg => hne g (List.mem_cons_of_mem _ hg))
    · rw [if_neg hc]
      have hp : (g.containsElement e && g.curvatureSet) = false := by
        rw [Bool.eq_false_iff.mpr hc]
        rfl
      rw [hp]
      exact ih (fun g hg => hnd g (List.mem_cons_of_mem _ hg))
        (fun g hg => hne g (List.mem_cons_of_mem _ hg))

/-- Claim C4: for every element, the assigned strain tensor comes from the
first group in priority order (named groups in configuration order, then
the implicit no-group default) that contains the element and has a
set-or-inheritable strain tensor, with the default tensor when no named
group matches; curvature resolves independently by the same rule, so the
two may come from different groups. -/
theorem assignPenalties_first_match (named : List PenaltyGroup) (dg : PenaltyGroup) (e : ℕ)
    (hnamed : ∀ g ∈ named, g.isDefault = false)
    (hdef : dg.isDefault = true)
    (hne : ∀ g ∈ named, g.strainPenalty ≠ [] ∧ g.curvaturePenalty ≠ []) :
    (resolvePenalties (named ++ [dg]) e).1.1 =
      some (((named.find? fun g => g.containsElement e && g.strainSet).map
        fun g => g.strainPenalty).getD dg.strainPenalty) ∧
    (resolvePenalties (named ++ [dg]) e).2.1 =
      some (((named.find? fun g => g.containsElement e && g.curvatureSet).map
        fun g => g.curvaturePenalty).getD dg.curvaturePenalty) := by
  rw [resolvePenalties, penaltyLoop_eq_marginals]
  constructor
  · rw [strainLoop_named e dg hdef named hnamed (fun g hg => (hne g hg).1)]
    cases named.find? fun g => g.containsElement e && g.strainSet with
    | none => rfl
    | some g => rfl
  · rw [curvatureLoop_named e dg hdef named hnamed (fun g hg => (hne g hg).2)]
    cases named.find? fun g => g.containsElement e && g.curvatureSet with
    | none => rfl
    | some g => rfl

/-- Witness for C4: two overlapping named groups; the element's strain
tensor comes from the first group in order, its curvature tensor from the
second (whose curvature alone is set), and an element in no named group
gets the default tensors. -/
theorem assignPenalties_first_match_witness :
    (resolvePenalties
      ([⟨false, fun e => decide (e = 1), [1, 0, 0, 0], some true, false, [0, 0, 0, 0, 0, 0, 0, 0], none, false⟩,
        ⟨false, fun e => decide (e = 1), [2, 0, 0, 0], some true, false, [3, 0, 0, 0, 0, 0, 0, 0], some true, false⟩] ++
        [⟨true, fun _ => false, [0, 0, 0, 0], none, false, [0, 0, 0, 0, 0, 0, 0, 0], none, false⟩]) 1).1.1 =
      some [1, 0, 0, 0] ∧
    (resolvePenalties
      ([⟨false, fun e => decide (e = 1), [1, 0, 0, 0], some true, false, [0, 0, 0, 0, 0, 0, 0, 0], none, false⟩,
        ⟨false, fun e => decide (e = 1), [2, 0, 0, 0], some true, false, [3, 0, 0, 0, 0, 0, 0, 0], some true, false⟩] ++
        [⟨true, fun _ => false, [0, 0, 0, 0], none, false, [0, 0, 0, 0, 0, 0, 0, 0], none, false⟩]) 1).2.1 =
      some [3, 0, 0, 0, 0, 0, 0, 0] := by
  have h := assignPenalties_first_match
    [⟨false, fun e => decide (e = 1), [1, 0, 0, 0], some true, false, [0, 0, 0, 0, 0, 0, 0, 0], none, false⟩,
     ⟨false, fun e => decide (e = 1), [2, 0, 0, 0], some true, false, [3, 0, 0, 0, 0, 0, 0, 0], some true, false⟩]
    ⟨true, fun _ => false, [0, 0, 0, 0], none, false, [0, 0, 0, 0, 0, 0, 0, 0], none, false⟩ 1
    (by decide) (by decide) (by decide)
  refine ⟨?_, ?_⟩
  · rw [h.1]
    decide
  · rw [h.2]
    decide

/- C5 helpers: the nonzero flag carried through the scan always equals the
positivity of the carried tensor, and the active-set fold factors into
per-set filters. -/

theorem strainLoop_flag (e : ℕ) :
    ∀ (gs : List PenaltyGroup) (sp : Option (List ℚ) × Bool),
      sp.2 = tensorAnyPos sp.1 → (strainLoop e gs sp).2 = tensorAnyPos (strainLoop e gs sp).1 := by
  intro gs
  induction gs with
  | nil => intro sp h; exact h
  | cons g gs ih =>
    intro sp h
    simp only [strainLoop]
    by_cases hg : (g.isDefault || g.containsElement e) = true
    · rw [if_pos hg]
      apply ih
      by_cases hu : (pyFalsyTensor sp.1 && (g.strainSet || g.isDefault)) = true
      · rw [if_pos hu]
        simp [groupStrainNonZero, tensorAnyPos]
      · rw [if_neg hu]
        exact h
    · rw [if_neg hg]
      exact ih sp h

theorem curvatureLoop_flag (e : ℕ) :
    ∀ (gs : List PenaltyGroup) (cp : Option (List ℚ) × Bool),
      cp.2 = tensorAnyPos cp.1 →
      (curvatureLoop e gs cp).2 = tensorAnyPos (curvatureLoop e gs cp).1 := by
  intro gs
  induction gs with
  | nil => intro cp h; exact h
  | cons g gs ih =>
    intro cp h
    simp only [curvatureLoop]
    by_cases hg : (g.isDefault || g.containsElement e) = true
    · rw [if_pos hg]
      apply ih
      by_cases hu : (pyFalsyTensor cp.1 && (g.curvatureSet || g.isDefault)) = true
      · rw [if_pos hu]
        simp [groupCurvatureNonZero, tensorAnyPos]
      · rw [if_neg hu]
        exact h
    · rw [if_neg hg]
      exact ih cp h

theorem assignFold_strainActive (groups : List PenaltyGroup) :
    ∀ (els : List ℕ) (sets : ActiveSets),
      (els.foldl (assignElementStep groups) sets).strainActive =
        els.foldl (fun acc a => acc ++ (if (resolvePenalties groups a).1.2 then [a] else []))
          sets.strainActive := by
  intro els
  induction els with
  | nil => intro sets; rfl
  | cons a els ih =>
    intro sets
    simp only [List.foldl_cons]
    rw [ih]
    rfl

theorem assignFold_curvatureActive (groups : List PenaltyGroup) :
    ∀ (els : List ℕ) (sets : ActiveSets),
      (els.foldl (assignElementStep groups) sets).curvatureActive =
        els.foldl (fun acc a => acc ++ (if (resolvePenalties groups a).2.2 then [a] else []))
          sets.curvatureActive := by
  intro els
  induction els with
  | nil => intro sets; rfl
  | cons a els ih =>
    intro sets
    simp only [List.foldl_cons]
    rw [ih]
    rfl

theorem assignFold_deformActive (groups : List PenaltyGroup) :
    ∀ (els : List ℕ) (sets : ActiveSets),
      (els.foldl (assignElementStep groups) sets).deformActive =
        els.foldl (fun acc a =>
          acc ++ (if (resolvePenalties groups a).1.2 || (resolvePenalties groups a).2.2
            then [a] else [])) sets.deformActive := by
  intro els
  induction els with
  | nil => intro sets; rfl
  | cons a els ih =>
    intro sets
    simp only [List.foldl_cons]
    rw [ih]
    rfl

theorem mem_foldl_filterAppend (f : ℕ → Bool) :
    ∀ (els : List ℕ) (S : List ℕ) (e : ℕ),
      (e ∈ els.foldl (fun acc a => acc ++ (if f a then [a] else [])) S ↔
        e ∈ S ∨ (e ∈ els ∧ f e = true)) := by
  intro els
  induction els with
  | nil =>
    intro S e
    simp
  | cons a els ih =>
    intro S e
    rw [List.foldl_cons, ih]
    by_cases hfa : f a = true
    · rw [if_pos hfa]
      constructor
      · rintro (hm | ⟨hmem, hfl⟩)
        · rcases List.mem_append.mp hm with hS | ha
          · exact Or.inl hS
          · rw [List.mem_singleton] at ha
            subst ha
            exact Or.inr ⟨List.mem_cons_self e els, hfa⟩
        · exact Or.inr ⟨List.mem_cons_of_mem a hmem, hfl⟩
      · rintro (hS | ⟨hmem, hfl⟩)
        · exact Or.inl (List.mem_append_left _ hS)
        · rcases List.mem_cons.mp hmem with rfl | hmem'
          · exact Or.inl (List.mem_append_right _ (List.mem_singleton_self e))
          · exact Or.inr ⟨hmem', hfl⟩
    · rw [if_neg hfa]
      rw [List.append_nil]
      constructor
      · rintro (hS | ⟨hmem, hfl⟩)
        · exact Or.inl hS
        · exact Or.inr ⟨List.mem_cons_of_mem a hmem, hfl⟩
      · rintro (hS | ⟨hmem, hfl⟩)
        · exact Or.inl hS
        · rcases List.mem_cons.mp hmem with rfl | hmem'
          · exact absurd hfl hfa
          · exact Or.inr ⟨hmem', hfl⟩

/-- Claim C5: assignDeformationPenalties fully rebuilds all three active
element sets - the result is independent of the prior sets, so no element
from a previous call persists - and an element is strain-active iff its
assigned strain tensor has some positive component, curvature-active iff
its assigned curvature tensor has some positive component, and
deform-active iff it is in at least one of the other two sets. -/
theorem activeSets_rebuild (groups : List PenaltyGroup) (elements : List ℕ)
    (prior prior' : ActiveSets) (e : ℕ) :
    assignDeformationPenalties groups elements prior =
      assignDeformationPenalties groups elements prior' ∧
    (e ∈ (assignDeformationPenalties groups elements prior).strainActive ↔
      e ∈ elements ∧ tensorAnyPos (resolvePenalties groups e).1.1 = true) ∧
    (e ∈ (assignDeformationPenalties groups elements prior).curvatureActive ↔
      e ∈ elements ∧ tensorAnyPos (resolvePenalties groups e).2.1 = true) ∧
    (e ∈ (assignDeformationPenalties groups elements prior).deformActive ↔
      (e ∈ (assignDeformationPenalties groups elements prior).strainActive ∨
        e ∈ (assignDeformationPenalties groups elements prior).curvatureActive)) := by
  have hflag1 : ∀ a, (resolvePenalties groups a).1.2 = tensorAnyPos (resolvePenalties groups a).1.1 := by
    intro a
    rw [resolvePenalties, penaltyLoop_eq_marginals]
    exact strainLoop_flag a groups (none, false) rfl
  have hflag2 : ∀ a, (resolvePenalties groups a).2.2 = tensorAnyPos (resolvePenalties groups a).2.1 := by
    intro a
    rw [resolvePenalties, penaltyLoop_eq_marginals]
    exact curvatureLoop_flag a groups (none, false) rfl
  refine ⟨rfl, ?_, ?_, ?_⟩
  · rw [assignDeformationPenalties, assignFold_strainActive, mem_foldl_filterAppend]
    rw [hflag1 e]
    simp
  · rw [assignDeformationPenalties, assignFold_curvatureActive, mem_foldl_filterAppend]
    rw [hflag2 e]
    simp
  · rw [assignDeformationPenalties, assignFold_strainActive, assignFold_curvatureActive,
      assignFold_deformActive, mem_foldl_filterAppend, mem_foldl_filterAppend,
      mem_foldl_filterAppend]
    simp only [List.not_mem_nil, false_or, Bool.or_eq_true]
    constructor
    · rintro ⟨hmem, hor⟩
      rcases hor with h1 | h2
      · exact Or.inl ⟨hmem, h1⟩
      · exact Or.inr ⟨hmem, h2⟩
    · rintro (⟨hmem, h1⟩ | ⟨hmem, h2⟩)
      · exact ⟨hmem, Or.inl h1⟩
      · exact ⟨hmem, Or.inr h2⟩

/-- Claim C6: the alignment optimisation requires at least 3
correspondence pairs; with fewer the step fails (the entry assertion
fires) and the step's stored rotation, scale and translation are exactly
their values before the call. -/
theorem optimiseAlignment_min_points
    (solver : List (String × (List ℚ) × (List ℚ)) → Option (List ℚ × ℚ × List ℚ))
    (step : AlignParams) (pointMap : List (String × (List ℚ) × (List ℚ)))
    (h : pointMap.length < 3) :
    optimiseAlignment solver step pointMap = (step, false) ∧
    (optimiseAlignment solver step pointMap).1.rotation = step.rotation ∧
    (optimiseAlignment solver step pointMap).1.scale = step.scale ∧
    (optimiseAlignment solver step pointMap).1.translation = step.translation := by
  have hrun : optimiseAlignment solver step pointMap = (step, false) := by
    rw [optimiseAlignment, if_pos h]
  exact ⟨hrun, by rw [hrun], by rw [hrun], by rw [hrun]⟩

/-- Witness for C6: a two-entry correspondence map fails and leaves the
parameters untouched, even when the solver could have produced values. -/
theorem optimiseAlignment_min_points_witness :
    optimiseAlignment (fun _ => some ([1, 1, 1], 2, [3, 3, 3]))
      ⟨[0, 0, 0], 1, [0, 0, 0]⟩
      [("a", [0, 0, 0], [1, 0, 0]), ("b", [0, 1, 0], [1, 1, 0])] =
      (⟨[0, 0, 0], 1, [0, 0, 0]⟩, false) :=
  (optimiseAlignment_min_points (fun _ => some ([1, 1, 1], 2, [3, 3, 3]))
    ⟨[0, 0, 0], 1, [0, 0, 0]⟩
    [("a", [0, 0, 0], [1, 0, 0]), ("b", [0, 1, 0], [1, 1, 0])] (by decide)).1

/- C7 helper: decoding an encoded step record restores the step. -/

theorem decodeStepRecord_encodeStepSettings (s : StepSettings) :
    decodeStepRecord (encodeStepSettings s) = s := by
  cases s with
  | config p => rfl
  | align a =>
    simp only [encodeStepSettings, decodeStepRecord, decodeAlignSettingsJSONDict,
      encodeAlignSettingsJSONDict, Option.getD_some]
  | fit p => rfl

/-- Claim C7: decoding the JSON produced by encodeSettingsJSON restores an
equivalent settings object - the field names, marker group, diagnostic
level, the step order and every per-step field (for an Align step its
alignGroups, alignMarkers, rotation, scale and translation) - whatever
settings the decoding fitter held before.  The hypothesis is the Fitter
invariant that the step list starts with the initial Config step. -/
theorem settings_roundtrip (f g : FitterSettings)
    (h : ∃ p rest, f.fitterSteps = StepSettings.config p :: rest) :
    Fitter.decodeSettingsJSON g (Fitter.encodeSettingsJSON f) = (f, true) := by
  obtain ⟨p, rest, hsteps⟩ := h
  have hmap : (f.fitterSteps.map encodeStepSettings).map decodeStepRecord = f.fitterSteps := by
    rw [List.map_map]
    have : decodeStepRecord ∘ encodeStepSettings = id := by
      funext s
      exact decodeStepRecord_encodeStepSettings s
    rw [this, List.map_id]
  simp only [Fitter.decodeSettingsJSON, Fitter.encodeSettingsJSON]
  rw [hmap, hsteps]
  simp only [StepSettings.isConfig, if_true]
  rw [← hsteps]

/-- Witness for C7: a settings object with a config step followed by a
fully populated align step survives the round trip, decoded into a fitter
holding different settings. -/
theorem settings_roundtrip_witness :
    Fitter.decodeSettingsJSON
      ⟨some "other", none, none, none, 2, []⟩
      (Fitter.encodeSettingsJSON
        ⟨some "coordinates", some "data_coordinates", none, some "marker", 1,
          [StepSettings.config [("p", 1)],
           StepSettings.align ⟨[("w", 2)], true, true, [0, 1, 2], 3, [4, 5, 6]⟩]⟩) =
      (⟨some "coordinates", some "data_coordinates", none, some "marker", 1,
        [StepSettings.config [("p", 1)],
         StepSettings.align ⟨[("w", 2)], true, true, [0, 1, 2], 3, [4, 5, 6]⟩]⟩, true) :=
  settings_roundtrip
    ⟨some "coordinates", some "data_coordinates", none, some "marker", 1,
      [StepSettings.config [("p", 1)],
       StepSettings.align ⟨[("w", 2)], true, true, [0, 1, 2], 3, [4, 5, 6]⟩]⟩
    ⟨some "other", none, none, none, 2, []⟩
    ⟨[("p", 1)], [StepSettings.align ⟨[("w", 2)], true, true, [0, 1, 2], 3, [4, 5, 6]⟩], rfl⟩

/-- Claim C8: decodeSettingsJSON fails exactly when the decoded step list
is empty or its first element is not a Config-kind step, and on that
failure the fitter's step list is restored and no other settings field is
modified (the whole settings state equals its value before the call). -/
theorem decodeSettings_failure (f : FitterSettings) (s : SettingsDict) :
    ((Fitter.decodeSettingsJSON f s).2 = false ↔
      (s.fitterSteps.map decodeStepRecord = [] ∨
        ∃ st rest, s.fitterSteps.map decodeStepRecord = st :: rest ∧ st.isConfig = false)) ∧
    ((Fitter.decodeSettingsJSON f s).2 = false → Fitter.decodeSettingsJSON f s = (f, false)) := by
  cases hsteps : s.fitterSteps.map decodeStepRecord with
  | nil =>
    have hrun : Fitter.decodeSettingsJSON f s = (f, false) := by
      simp only [Fitter.decodeSettingsJSON]
      rw [hsteps]
    rw [hrun]
    exact ⟨by simp, fun _ => rfl⟩
  | cons st rest =>
    by_cases hc : st.isConfig = true
    · have hrun : (Fitter.decodeSettingsJSON f s).2 = true := by
        simp only [Fitter.decodeSettingsJSON]
        rw [hsteps]
        simp [hc]
      rw [hrun]
      constructor
      · simp only [Bool.true_eq_false, false_iff]
        rintro (hnil | ⟨st', rest', heq, hcfg⟩)
        · exact List.cons_ne_nil st rest hnil
        · obtain ⟨rfl, rfl⟩ : st = st' ∧ rest = rest' := by
            have h1 := List.head_eq_of_cons_eq heq
            have h2 := List.tail_eq_of_cons_eq heq
            exact ⟨h1, h2⟩
          rw [hc] at hcfg
          exact Bool.true_eq_false.mp hcfg
      · intro hfalse
        exact absurd hfalse (by simp)
    · have hcf : st.isConfig = false := Bool.eq_false_iff.mpr hc
      have hrun : Fitter.decodeSettingsJSON f s = (f, false) := by
        simp only [Fitter.decodeSettingsJSON]
        rw [hsteps]
        simp [hcf]
      rw [hrun]
      exact ⟨by simp only [true_iff]; exact Or.inr ⟨st, rest, rfl, hcf⟩, fun _ => rfl⟩

/-- Witness for C8: decoding a step list whose first record is an Align
step fails and leaves the fitter's settings exactly as they were. -/
theorem decodeSettings_failure_witness :
    ((Fitter.decodeSettingsJSON
        ⟨some "coordinates", none, none, none, 1, [StepSettings.config []]⟩
        ⟨none, none, none, none, 0,
          [StepRecord.alignRec ⟨[], none, none, none, none, none⟩]⟩).2 = false ↔
      (([StepRecord.alignRec ⟨[], none, none, none, none, none⟩].map decodeStepRecord) = [] ∨
        ∃ st rest, ([StepRecord.alignRec ⟨[], none, none, none, none, none⟩].map decodeStepRecord) =
          st :: rest ∧ st.isConfig = false)) ∧
    ((Fitter.decodeSettingsJSON
        ⟨some "coordinates", none, none, none, 1, [StepSettings.config []]⟩
        ⟨none, none, none, none, 0,
          [StepRecord.alignRec ⟨[], none, none, none, none, none⟩]⟩).2 = false →
      Fitter.decodeSettingsJSON
        ⟨some "coordinates", none, none, none, 1, [StepSettings.config []]⟩
        ⟨none, none, none, none, 0,
          [StepRecord.alignRec ⟨[], none, none, none, none, none⟩]⟩ =
        (⟨some "coordinates", none, none, none, 1, [StepSettings.config []]⟩, false)) :=
  decodeSettings_failure
    ⟨some "coordinates", none, none, none, 1, [StepSettings.config []]⟩
    ⟨none, none, none, none, 0, [StepRecord.alignRec ⟨[], none, none, none, none, none⟩]⟩

/-- Claim C10: writeModel exports the geometry under the model coordinates
field name prefixed with "fitted ", and after the call - the write result
plays no role, so in particular also when the underlying region write
fails - the field's name equals its value before the call and no other
fitter settings are modified.  The hypothesis is the Fitter invariant that
the zinc field's name agrees with the stored settings name. -/
theorem writeModel_restores_name (write : String → Bool) (st : ModelExportState)
    (h : st.fieldName = st.modelCoordinatesFieldName) :
    (Fitter.writeModel write st).1.fieldName = st.fieldName ∧
    (Fitter.writeModel write st).1.modelCoordinatesFieldName = st.modelCoordinatesFieldName ∧
    (Fitter.writeModel write st).1.otherSettings = st.otherSettings ∧
    (Fitter.writeModel write st).2.1 = "fitted " ++ st.modelCoordinatesFieldName ∧
    (Fitter.writeModel write st).2.2 = write ("fitted " ++ st.modelCoordinatesFieldName) := by
  refine ⟨?_, rfl, rfl, rfl, rfl⟩
  rw [h]
  rfl

/-- Witness for C10: a failing region write still returns with the field
name restored and the settings untouched. -/
theorem writeModel_restores_name_witness :
    (Fitter.writeModel (fun _ => false)
        ⟨"coordinates", "coordinates", ⟨none, none, none, none, 0, []⟩⟩).1.fieldName =
      "coordinates" ∧
    (Fitter.writeModel (fun _ => false)
        ⟨"coordinates", "coordinates",
          ⟨none, none, none, none, 0, []⟩⟩).1.modelCoordinatesFieldName = "coordinates" ∧
    (Fitter.writeModel (fun _ => false)
        ⟨"coordinates", "coordinates", ⟨none, none, none, none, 0, []⟩⟩).1.otherSettings =
      ⟨none, none, none, none, 0, []⟩ ∧
    (Fitter.writeModel (fun _ => false)
        ⟨"coordinates", "coordinates", ⟨none, none, none, none, 0, []⟩⟩).2.1 =
      "fitted " ++ "coordinates" ∧
    (Fitter.writeModel (fun _ => false)
        ⟨"coordinates", "coordinates", ⟨none, none, none, none, 0, []⟩⟩).2.2 =
      (fun _ => false) ("fitted " ++ "coordinates") :=
  writeModel_restores_name (fun _ => false)
    ⟨"coordinates", "coordinates", ⟨none, none, none, none, 0, []⟩⟩ rfl

/-- Counterexample for C9: two model markers "A" and "a" fold to the same
name, the data has one marker "a".  With diagnostics on (level 1) the
matched data marker is popped, leaving one correspondence; with
diagnostics off (level 0) it is matched twice, leaving two - the
correspondence map depends on the diagnostic level. -/
theorem markerMap_diag_counterexample :
    doAutoAlignMarkerMap 1
        [("A", ((0 : ℚ), (0 : ℚ), (0 : ℚ))), ("a", ((0 : ℚ), (0 : ℚ), (0 : ℚ)))]
        [("a", ((1 : ℚ), (0 : ℚ), (0 : ℚ)))] ≠
      doAutoAlignMarkerMap 0
        [("A", ((0 : ℚ), (0 : ℚ), (0 : ℚ))), ("a", ((0 : ℚ), (0 : ℚ), (0 : ℚ)))]
        [("a", ((1 : ℚ), (0 : ℚ), (0 : ℚ)))] := by
  decide

/- C9 helpers: erasing data markers whose folded name differs from every
remaining model marker's folded name does not change any match. -/

theorem find?_eraseP_eq {α : Type} (p q : α → Bool) :
    ∀ l : List α, (∀ x ∈ l, q x = true → p x = false) →
      (l.eraseP q).find? p = l.find? p := by
  intro l
  induction l with
  | nil => intro _; rfl
  | cons x t ih =>
    intro h
    by_cases hq : q x = true
    · rw [List.eraseP_cons_of_pos hq]
      have hp : p x = false := h x (List.mem_cons_self x t) hq
      rw [List.find?_cons_of_neg _ (by rw [hp]; exact Bool.false_ne_true)]
    · rw [List.eraseP_cons_of_neg hq]
      by_cases hp : p x = true
      · rw [List.find?_cons_of_pos _ hp, List.find?_cons_of_pos _ hp]
      · rw [List.find?_cons_of_neg _ hp, List.find?_cons_of_neg _ hp]
        exact ih fun y hy => h y (List.mem_cons_of_mem x hy)

theorem markerMatchLoop_erase (n0 : String) :
    ∀ (mm : List (String × V3)) (dm : List (String × V3)),
      (∀ m ∈ mm, normName m.1 ≠ n0) →
      markerMatchLoop false mm (dm.eraseP fun d => normName d.1 == n0) =
        markerMatchLoop false mm dm := by
  intro mm
  induction mm with
  | nil => intro dm _; rfl
  | cons m mm ih =>
    intro dm h
    obtain ⟨mName, mPos⟩ := m
    have hne : normName mName ≠ n0 := h (mName, mPos) (List.mem_cons_self _ _)
    have htail : ∀ m' ∈ mm, normName m'.1 ≠ n0 :=
      fun m' hm' => h m' (List.mem_cons_of_mem _ hm')
    have hfind : (dm.eraseP fun d => normName d.1 == n0).find?
        (fun d => normName d.1 == normName mName) =
        dm.find? (fun d => normName d.1 == normName mName) := by
      apply find?_eraseP_eq
      intro x hx hqx
      have hx1 : normName x.1 = n0 := by simpa using hqx
      rw [hx1]
      exact beq_eq_false_iff_ne.mpr fun hv => hne hv.symm
    simp only [markerMatchLoop, hfind]
    cases hfd : dm.find? fun d => normName d.1 == normName mName with
    | none => exact ih dm htail
    | some d =>
      simp only [Bool.false_eq_true, if_false]
      rw [ih dm htail]

theorem markerMatchLoop_diag_eq :
    ∀ mm : List (String × V3),
      mm.Pairwise (fun a b => normName a.1 ≠ normName b.1) →
      ∀ dm : List (String × V3),
        markerMatchLoop true mm dm = markerMatchLoop false mm dm := by
  intro mm
  induction mm with
  | nil => intro _ dm; rfl
  | cons m mm ih =>
    intro hpw dm
    rw [List.pairwise_cons] at hpw
    obtain ⟨hhead, htail⟩ := hpw
    obtain ⟨mName, mPos⟩ := m
    simp only [markerMatchLoop]
    cases hfd : dm.find? fun d => normName d.1 == normName mName with
    | none => exact ih htail dm
    | some d =>
      simp only [if_true, Bool.false_eq_true, if_false]
      rw [ih htail (dm.eraseP fun d2 => normName d2.1 == normName mName)]
      rw [markerMatchLoop_erase (normName mName) mm dm
        (fun m' hm' => fun hv => hhead m' hm' hv.symm)]

/- C9 helper: writing each match into the shared pointMap dict as it is
found is the same as folding the matched-entry list into the dict; model
marker names are unique dict keys, so the insertions never interact. -/

theorem markerMatchLoopMap_eq_foldl (diag : Bool) :
    ∀ (mm dm : List (String × V3)) (pm : List (String × V3 × V3)),
      markerMatchLoopMap diag mm dm pm =
        (markerMatchLoop diag mm dm).foldl
          (fun acc e => pyDictInsert acc e.1 e.2) pm := by
  intro mm
  induction mm with
  | nil => intro dm pm; rfl
  | cons m mm ih =>
    intro dm pm
    obtain ⟨mName, mPos⟩ := m
    simp only [markerMatchLoopMap, markerMatchLoop]
    cases hfd : dm.find? fun d => normName d.1 == normName mName with
    | none => exact ih dm pm
    | some d =>
      rw [List.foldl_cons]
      exact ih _ _

/-- Claim C9 (amended): provided the stripped, casefolded model marker
names are pairwise distinct - markers are uniquely named points, so this
is the expected situation - the correspondence map built by the align
step's automatic group and marker matching (group entries, which read no
diagnostic state, then marker entries written into the same dict), and
hence the transform the alignment solver computes from it, is identical
for any two values of the diagnostic level; the level then affects only
which warnings are printed.  (As stated over all inputs the claim fails:
see the counterexample, where the diagnostics-only pop of a matched data
marker changes a second match.) -/
theorem pointMap_diag_independent (lvl1 lvl2 : ℕ) (alignGroups alignMarkers : Bool)
    (groups : List AlignGroupInfo) (modelMarkers dataMarkers : List (String × V3))
    (solver : List (String × (List ℚ) × (List ℚ)) → Option (List ℚ × ℚ × List ℚ))
    (step : AlignParams)
    (h : modelMarkers.Pairwise fun a b => normName a.1 ≠ normName b.1) :
    doAutoAlignPointMap lvl1 alignGroups alignMarkers groups modelMarkers dataMarkers =
      doAutoAlignPointMap lvl2 alignGroups alignMarkers groups modelMarkers dataMarkers ∧
    optimiseAlignment solver step
        ((doAutoAlignPointMap lvl1 alignGroups alignMarkers groups modelMarkers
          dataMarkers).map fun e => (e.1, v3ToList e.2.1, v3ToList e.2.2)) =
      optimiseAlignment solver step
        ((doAutoAlignPointMap lvl2 alignGroups alignMarkers groups modelMarkers
          dataMarkers).map fun e => (e.1, v3ToList e.2.1, v3ToList e.2.2)) := by
  have hloop : ∀ b1 b2 : Bool,
      markerMatchLoop b1 modelMarkers dataMarkers =
        markerMatchLoop b2 modelMarkers dataMarkers := by
    intro b1 b2
    cases b1 <;> cases b2
    · rfl
    · exact (markerMatchLoop_diag_eq modelMarkers h dataMarkers).symm
    · exact markerMatchLoop_diag_eq modelMarkers h dataMarkers
    · rfl
  have hmap : doAutoAlignPointMap lvl1 alignGroups alignMarkers groups modelMarkers
      dataMarkers =
      doAutoAlignPointMap lvl2 alignGroups alignMarkers groups modelMarkers dataMarkers := by
    simp only [doAutoAlignPointMap]
    cases alignMarkers with
    | false => rfl
    | true =>
      simp only [if_true]
      rw [markerMatchLoopMap_eq_foldl, markerMatchLoopMap_eq_foldl,
        hloop (decide (0 < lvl1)) (decide (0 < lvl2))]
  exact ⟨hmap, by rw [hmap]⟩

/-- Witness for C9 (amended): one matched group and two model markers with
distinct folded names; the full point maps and the transforms at
diagnostic levels 1 and 0 agree. -/
theorem pointMap_diag_independent_witness :
    (doAutoAlignPointMap 1 true true
        [⟨"left", true, true, ((2 : ℚ), (0 : ℚ), (0 : ℚ)), ((4 : ℚ), (0 : ℚ), (0 : ℚ)), 2⟩]
        [("A", ((0 : ℚ), (0 : ℚ), (0 : ℚ))), ("B", ((1 : ℚ), (0 : ℚ), (0 : ℚ)))]
        [("a ", ((2 : ℚ), (0 : ℚ), (0 : ℚ))), ("b", ((3 : ℚ), (0 : ℚ), (0 : ℚ)))] =
      doAutoAlignPointMap 0 true true
        [⟨"left", true, true, ((2 : ℚ), (0 : ℚ), (0 : ℚ)), ((4 : ℚ), (0 : ℚ), (0 : ℚ)), 2⟩]
        [("A", ((0 : ℚ), (0 : ℚ), (0 : ℚ))), ("B", ((1 : ℚ), (0 : ℚ), (0 : ℚ)))]
        [("a ", ((2 : ℚ), (0 : ℚ), (0 : ℚ))), ("b", ((3 : ℚ), (0 : ℚ), (0 : ℚ)))]) ∧
    (optimiseAlignment (fun _ => none) ⟨[0, 0, 0], 1, [0, 0, 0]⟩
        ((doAutoAlignPointMap 1 true true
          [⟨"left", true, true, ((2 : ℚ), (0 : ℚ), (0 : ℚ)), ((4 : ℚ), (0 : ℚ), (0 : ℚ)), 2⟩]
          [("A", ((0 : ℚ), (0 : ℚ), (0 : ℚ))), ("B", ((1 : ℚ), (0 : ℚ), (0 : ℚ)))]
          [("a ", ((2 : ℚ), (0 : ℚ), (0 : ℚ))), ("b", ((3 : ℚ), (0 : ℚ), (0 : ℚ)))]).map
            fun e => (e.1, v3ToList e.2.1, v3ToList e.2.2)) =
      optimiseAlignment (fun _ => none) ⟨[0, 0, 0], 1, [0, 0, 0]⟩
        ((doAutoAlignPointMap 0 true true
          [⟨"left", true, true, ((2 : ℚ), (0 : ℚ), (0 : ℚ)), ((4 : ℚ), (0 : ℚ), (0 : ℚ)), 2⟩]
          [("A", ((0 : ℚ), (0 : ℚ), (0 : ℚ))), ("B", ((1 : ℚ), (0 : ℚ), (0 : ℚ)))]
          [("a ", ((2 : ℚ), (0 : ℚ), (0 : ℚ))), ("b", ((3 : ℚ), (0 : ℚ), (0 : ℚ)))]).map
            fun e => (e.1, v3ToList e.2.1, v3ToList e.2.2))) :=
  pointMap_diag_independent 1 0 true true
    [⟨"left", true, true, ((2 : ℚ), (0 : ℚ), (0 : ℚ)), ((4 : ℚ), (0 : ℚ), (0 : ℚ)), 2⟩]
    [("A", ((0 : ℚ), (0 : ℚ), (0 : ℚ))), ("B", ((1 : ℚ), (0 : ℚ), (0 : ℚ)))]
    [("a ", ((2 : ℚ), (0 : ℚ), (0 : ℚ))), ("b", ((3 : ℚ), (0 : ℚ), (0 : ℚ)))]
    (fun _ => none) ⟨[0, 0, 0], 1, [0, 0, 0]⟩ (by decide)
